import Mathlib

/-!
Shallow embedding of the COPD QC reference backend (qc_engine.py and
data_manager.py) over an in-memory tabular data model, together with
theorems about the rule-based QC engine, the summary category mappers
and the per-variable statistics engine.

Cells of the table are `Option Val`: `none` models a pandas missing
value (NaN), `some (Val.num q)` a numeric cell and `some (Val.str s)` a
text cell.  Machine floats are modelled by exact rationals.
-/

namespace CopdQC

/-- A non-missing cell value: numeric or text. -/
inductive Val where
  | num (q : ℚ)
  | str (s : String)
deriving DecidableEq, Repr

/-- A column-oriented table: ordered column names plus one cell list per
row, aligned positionally with the column names. -/
structure DataFrame where
  cols : List String
  rows : List (List (Option Val))
deriving DecidableEq, Repr

/-- Row lengths agree with the column count (pandas guarantees this shape). -/
def DataFrame.wf (df : DataFrame) : Prop :=
  ∀ r ∈ df.rows, r.length = df.cols.length

/-- Index of a column name, first match (pandas label lookup). -/
def colIdx (cols : List String) (c : String) : Option Nat :=
  cols.findIdx? (fun x => x == c)

/-- Column-membership test, models `c in df.columns`. -/
def DataFrame.hasCol (df : DataFrame) (c : String) : Bool :=
  df.cols.contains c

/-- Cell of one row under column `c`; `none` both for an absent column
and for a missing value, matching how a NaN cell reads. -/
def cellAt (cols : List String) (row : List (Option Val)) (c : String) : Option Val :=
  match colIdx cols c with
  | none => none
  | some i => (row.get? i).join

/-- Whole column as a list of cells, empty when the column is absent. -/
def DataFrame.colCells (df : DataFrame) (c : String) : List (Option Val) :=
  match colIdx df.cols c with
  | none => []
  | some i => df.rows.map (fun r => (r.get? i).join)

/-- `Series.get(label, default)`: the default only substitutes when the
label is absent from the row's index; a present-but-missing cell is
returned as the missing value itself. -/
def seriesGet (cols : List String) (row : List (Option Val)) (c : String)
    (dflt : Val) : Option Val :=
  match colIdx cols c with
  | none => some dflt
  | some i => (row.get? i).join

/-! ### Python string rendering and stripping -/

/-- Rendering of a numeric cell by Python `str`.  Integral values render
as integers; non-integral rationals use the exact fraction form (the
claims under verification only ever stringify integral or missing
cells, so float decimal rendering is not needed). -/
def pyStrVal : Val → String
  | .num q => if q.den = 1 then toString q.num else toString q.num ++ "/" ++ toString q.den
  | .str s => s

/-- `str` applied to a cell; a missing value renders as `"nan"`, which is
what `str(float('nan'))` and `Series.astype(str)` produce. -/
def pyStr (c : Option Val) : String :=
  match c with
  | none => "nan"
  | some v => pyStrVal v

/-- Strip leading and trailing whitespace from a character list, the
list-level model of Python `str.strip()`. -/
def stripChars (l : List Char) : List Char :=
  ((l.dropWhile Char.isWhitespace).reverse.dropWhile Char.isWhitespace).reverse

/-- Python `str.strip()`. -/
def pyStrip (s : String) : String :=
  String.mk (stripChars s.data)

/-! ### Python float coercion -/

/-- Numeric value of a digit list (most significant first). -/
def digitsVal (l : List Char) : ℕ :=
  l.foldl (fun a c => a * 10 + (c.toNat - 48)) 0

/-- Unsigned decimal literal accepted by Python `float`: digits with an
optional fractional part, at least one digit overall.  Exponent and
`inf`/`nan` literals are not modelled; no claim exercises them. -/
def parseUnsigned (l : List Char) : Option ℚ :=
  let intPart := l.takeWhile Char.isDigit
  let rest := l.dropWhile Char.isDigit
  match rest with
  | [] => if intPart.isEmpty then none else some (digitsVal intPart)
  | '.' :: frac =>
      if frac.all Char.isDigit && !(intPart.isEmpty && frac.isEmpty) then
        some ((digitsVal intPart : ℚ) + (digitsVal frac : ℚ) / (10 : ℚ) ^ frac.length)
      else none
  | _ => none

/-- Python `float(string)`: strips whitespace, allows a sign. -/
def parsePyFloat (s : String) : Option ℚ :=
  match stripChars s.data with
  | '+' :: t => parseUnsigned t
  | '-' :: t => (parseUnsigned t).map Neg.neg
  | t => parseUnsigned t

/-- Python `float(val)` on a cell value. -/
def pyFloatOfVal : Val → Option ℚ
  | .num q => some q
  | .str s => parsePyFloat s

/-- Python `int(float)`: truncation toward zero, i.e. t-division of the
numerator by the (positive) denominator. -/
def pyTrunc (q : ℚ) : ℤ :=
  Int.tdiv q.num (q.den : ℤ)

/-! ### QC rules (qc_engine.py) -/

/-- One emitted violation record. -/
structure Violation where
  location : Option Val
  subjId : Option Val
  visitNm : Option Val
  rule_id : String
  domain : String
  rule_type : String
  severity : String
  targetVar : String
  current_value : String
  rule_description : String
deriving DecidableEq, Repr

/-- A QC rule: metadata plus a predicate producing a boolean row mask or
failing (a raised Python exception is an `Except.error`). -/
structure Rule where
  id : String
  domain : String
  rtype : String
  severity : String
  targetVar : String
  description : String
  check : DataFrame → Except String (List Bool)

/-- `df[c].isna()` — raises `KeyError` when the column is absent. -/
def checkMiss (c : String) (df : DataFrame) : Except String (List Bool) :=
  match colIdx df.cols c with
  | none => .error "KeyError"
  | some i => .ok (df.rows.map (fun r => ((r.get? i).join).isNone))

/-- Does a cell hold a text value (which makes a numeric comparison on
the column raise a `TypeError` in pandas)? -/
def isStrCell : Option Val → Bool
  | some (.str _) => true
  | _ => false

/-- `(df['AGE'] < 40) | (df['AGE'] > 100)` guarded by column presence;
comparisons against missing cells are false, a text cell anywhere in the
column raises. -/
def checkAgeRange (df : DataFrame) : Except String (List Bool) :=
  if df.hasCol "AGE" then
    let cells := df.colCells "AGE"
    if cells.any isStrCell then .error "TypeError"
    else .ok (cells.map (fun c =>
      match c with
      | some (.num q) => decide (q < 40) || decide (q > 100)
      | _ => false))
  else .ok (df.rows.map (fun _ => false))

/-- `Series.isin([1, 2, 3])` on one cell: numeric equality only; missing
and text cells are not members. -/
def isinOneTwoThree : Option Val → Bool
  | some (.num q) => decide (q = 1) || decide (q = 2) || decide (q = 3)
  | _ => false

/-- `(~df[c].isin([1,2,3])) & (df[c].notna())` guarded by column presence. -/
def checkEnrollVal (df : DataFrame) : Except String (List Bool) :=
  if df.hasCol "ENROLL_COPDNOTCOPD" then
    .ok ((df.colCells "ENROLL_COPDNOTCOPD").map
      (fun c => !(isinOneTwoThree c) && c.isSome))
  else .ok (df.rows.map (fun _ => false))

/-- Registry rule 1: `SUBJ-MISS-001`. -/
def subjMissRule1 : Rule :=
  { id := "SUBJ-MISS-001", domain := "subject", rtype := "MISS",
    severity := "Critical", targetVar := "SUBJ_ID",
    description := "Subject ID must be present",
    check := checkMiss "SUBJ_ID" }

/-- Registry rule 2: `SUBJ-MISS-002`. -/
def subjMissRule2 : Rule :=
  { id := "SUBJ-MISS-002", domain := "subject", rtype := "MISS",
    severity := "Critical", targetVar := "LOCATION_NAME",
    description := "Location Name must be present",
    check := checkMiss "LOCATION_NAME" }

/-- Registry rule 3: `AGE-RANGE-001`. -/
def ageRangeRule : Rule :=
  { id := "AGE-RANGE-001", domain := "subject", rtype := "RANGE",
    severity := "Medium", targetVar := "AGE",
    description := "Age should be between 40 and 100",
    check := checkAgeRange }

/-- Registry rule 4: `ENROLL-VAL-001`. -/
def enrollValRule : Rule :=
  { id := "ENROLL-VAL-001", domain := "function", rtype := "VALUE",
    severity := "High", targetVar := "ENROLL_COPDNOTCOPD",
    description := "Enrollment status must be 1, 2, or 3",
    check := checkEnrollVal }

/-- The static rule registry of `QCEngine.__init__`, in source order. -/
def qcRules : List Rule :=
  [subjMissRule1, subjMissRule2, ageRangeRule, enrollValRule]

/-- Build the violation record for one flagged row. -/
def mkViolation (df : DataFrame) (rule : Rule) (row : List (Option Val)) : Violation :=
  { location := seriesGet df.cols row "LOCATION_NAME" (.str "Unknown")
    subjId := seriesGet df.cols row "SUBJ_ID" (.str "Unknown")
    visitNm := seriesGet df.cols row "VISIT_NM" (.str "Unknown")
    rule_id := rule.id
    domain := rule.domain
    rule_type := rule.rtype
    severity := rule.severity
    targetVar := rule.targetVar
    current_value := pyStr (seriesGet df.cols row rule.targetVar (.str "Missing"))
    rule_description := rule.description }

/-- Violations contributed by one rule: a raised predicate is caught
(`except Exception`) and contributes nothing. -/
def ruleViolations (df : DataFrame) (rule : Rule) : List Violation :=
  match rule.check df with
  | .error _ => []
  | .ok mask =>
      ((df.rows.zip mask).filter (fun p => p.2)).map (fun p => mkViolation df rule p.1)

/-- `QCEngine.run_qc`: every rule in registry order, each isolated. -/
def run_qc (rules : List Rule) (df : DataFrame) : List Violation :=
  (rules.map (ruleViolations df)).flatten

/-! ### QC report (get_stats) -/

/-- First-occurrence distinct elements of a list. -/
def uniqFirst [DecidableEq α] : List α → List α
  | [] => []
  | h :: t => h :: uniqFirst (t.filter (fun x => decide (x ≠ h)))
termination_by l => l.length
decreasing_by
  simp only [List.length_cons]
  exact Nat.lt_succ_of_le (List.length_filter_le _ _)

/-- Stable descending insertion by count (the order `value_counts` uses). -/
def insertByCount (x : α × ℕ) : List (α × ℕ) → List (α × ℕ)
  | [] => [x]
  | y :: t => if y.2 < x.2 then x :: y :: t else y :: insertByCount x t

/-- `Series.value_counts().to_dict()`: distinct values with their counts,
most frequent first (ties keep first-appearance order). -/
def countPairs [DecidableEq α] (l : List α) : List (α × ℕ) :=
  ((uniqFirst l).map (fun v => (v, l.count v))).foldl
    (fun acc x => insertByCount x acc) []

/-- The report shape returned by `QCEngine.get_stats`; `error_rate` is an
`Option` because the source emits that key only in the empty branch. -/
structure Report where
  total_errors : ℕ
  error_rate : Option ℕ
  severity_counts : List (String × ℕ)
  domain_counts : List (String × ℕ)
deriving DecidableEq, Repr

/-- `QCEngine.get_stats`. -/
def get_stats (qc : List Violation) : Report :=
  if qc.isEmpty then
    { total_errors := 0, error_rate := some 0
      severity_counts := [], domain_counts := [] }
  else
    { total_errors := qc.length, error_rate := none
      severity_counts := countPairs (qc.map (fun v => v.severity))
      domain_counts := countPairs (qc.map (fun v => v.domain)) }

/-! ### Summary and category mappers (data_manager.py, get_summary) -/

/-- In-place update of every cell of one column (pandas column
assignment); a no-op when the column is absent. -/
def mapCol (df : DataFrame) (c : String) (f : Option Val → Option Val) : DataFrame :=
  match colIdx df.cols c with
  | none => df
  | some i =>
      { cols := df.cols
        rows := df.rows.map (fun r => r.set i (f ((r.get? i).join))) }

/-- `Series.astype(str).str.strip()` on one cell: stringify (missing
becomes `"nan"`) then strip. -/
def normCell (c : Option Val) : Option Val :=
  some (.str (pyStrip (pyStr c)))

/-- Number of distinct non-missing values, models `Series.nunique()`. -/
def nuniqueCells (cells : List (Option Val)) : ℕ :=
  (uniqFirst (cells.filterMap id)).length

/-- The subject-status grouping table of `get_summary`. -/
def statusMapPairs : List (String × String) :=
  [ ("Screening", "Enrolled"), ("Enrolled", "Enrolled"),
    ("Drop Out", "Study Off"), ("Study Off + Lock", "Study Off"),
    ("Study Off", "Study Off"), ("Death", "Death"),
    ("Screening Failure", "Screening Failure") ]

/-- Lookup in the status grouping table. -/
def statusLookup (s : String) : Option String :=
  (statusMapPairs.find? (fun p => p.1 == s)).map (fun p => p.2)

/-- `.map(status_map).fillna(original)` on one cell: text values are
remapped with identity fallback, anything else passes through. -/
def mapStatusCell (c : Option Val) : Option Val :=
  match c with
  | some (.str s) => some (.str ((statusLookup s).getD s))
  | other => other

/-- The canonical subject-status display order. -/
def statusTargetOrder : List String :=
  ["Enrolled", "Study Off", "Death", "Screening Failure"]

/-- The canonical enrollment display order. -/
def enrollTargetOrder : List String :=
  ["COPD", "Non-COPD", "COPD in young age", "PRISm"]

/-- `drop_duplicates(subset=['SUBJ_ID'])`: keep the first row for each
distinct subject id cell (missing ids are mutual duplicates). -/
def dedupBySubj (cols : List String) :
    List (List (Option Val)) → List (Option Val) → List (List (Option Val))
  | [], _ => []
  | r :: t, seen =>
      let k := cellAt cols r "SUBJ_ID"
      if seen.contains k then dedupBySubj cols t seen
      else r :: dedupBySubj cols t (k :: seen)

/-- Statuses of the deduplicated subjects after grouping with identity
fallback, read from the (already normalized) table. -/
def mappedStatusVals (df : DataFrame) : List (Option Val) :=
  (dedupBySubj df.cols df.rows []).map
    (fun r => mapStatusCell (cellAt df.cols r "SUBJ_STATUS"))

/-- The `subj_status_counts` dict comprehension plus its fill-zero loop,
reproduced literally (the comprehension's filter is a tautology and the
loop never fires; theorems prove this). -/
def subjStatusCounts (df : DataFrame) : List (String × ℕ) :=
  let mapped := mappedStatusVals df
  let filtered := statusTargetOrder.filter
    (fun k => statusTargetOrder.contains k || mapped.contains (some (.str k)))
  let base := filtered.map (fun k => (k, mapped.count (some (.str k))))
  statusTargetOrder.foldl
    (fun acc k => if (acc.map Prod.fst).contains k then acc else acc ++ [(k, 0)])
    base

/-- `normalize_enroll`: coerce through `float` then `int` then `str`,
falling back to the raw string form when coercion raises.  A missing
cell reaches the fallback as `str(nan) = "nan"`. -/
def normalize_enroll (c : Option Val) : String :=
  match c with
  | none => "nan"
  | some v =>
      match pyFloatOfVal v with
      | some q => toString (pyTrunc q)
      | none => pyStrVal v

/-- The enrollment code → display label table. -/
def enrollMapPairs : List (String × String) :=
  [("1", "COPD"), ("2", "Non-COPD"), ("3", "COPD in young age"), ("4", "PRISm")]

/-- Lookup in the enrollment table (`Series.map` with no fallback:
unmapped codes become missing). -/
def enrollLabel (s : String) : Option String :=
  (enrollMapPairs.find? (fun p => p.1 == s)).map (fun p => p.2)

/-- Normalized-and-mapped enrollment labels of every row (`none` for
codes outside the table, which `value_counts` drops). -/
def mappedEnrollVals (df : DataFrame) : List (Option String) :=
  ((df.colCells "ENROLL_COPDNOTCOPD").map normalize_enroll).map enrollLabel

/-- The `enroll_counts` dict comprehension. -/
def enrollCounts (df : DataFrame) : List (String × ℕ) :=
  enrollTargetOrder.map (fun k => (k, (mappedEnrollVals df).count (some k)))

/-- The summary record of `DataManager.get_summary`. -/
structure Summary where
  record_count : ℕ
  columns : ℕ
  institutions : ℕ
  subjects : ℕ
  subj_status : List (String × ℕ)
  enroll_copd : List (String × ℕ)
  visit_nm : List (String × ℕ)
deriving DecidableEq, Repr

/-- The `SUBJ_STATUS` in-place normalization of `get_summary` (runs only
when both grouping columns exist). -/
def statusNormalized (df : DataFrame) : DataFrame :=
  if df.hasCol "SUBJ_STATUS" && df.hasCol "SUBJ_ID" then
    mapCol df "SUBJ_STATUS" normCell
  else df

/-- The complete in-place effect of one `get_summary` call on the stored
table: `SUBJ_STATUS` then `VISIT_NM` normalization, each guarded. -/
def summaryNormalize (df : DataFrame) : DataFrame :=
  if df.hasCol "VISIT_NM" then mapCol (statusNormalized df) "VISIT_NM" normCell
  else statusNormalized df

/-- `DataManager.get_summary`: returns the summary together with the
table as left behind by the in-place column normalizations. -/
def get_summary (df : DataFrame) : Summary × DataFrame :=
  let df1 := statusNormalized df
  let subj :=
    if df.hasCol "SUBJ_STATUS" && df.hasCol "SUBJ_ID" then subjStatusCounts df1 else []
  let enroll := if df.hasCol "ENROLL_COPDNOTCOPD" then enrollCounts df1 else []
  let df2 := summaryNormalize df
  let visit :=
    if df.hasCol "VISIT_NM" then countPairs ((df2.colCells "VISIT_NM").map pyStr)
    else []
  ( { record_count := df2.rows.length
      columns := df2.cols.length
      institutions :=
        if df.hasCol "LOCATION_NAME" then nuniqueCells (df2.colCells "LOCATION_NAME") else 0
      subjects :=
        if df.hasCol "SUBJ_ID" then nuniqueCells (df2.colCells "SUBJ_ID") else 0
      subj_status := subj
      enroll_copd := enroll
      visit_nm := visit },
    df2 )

/-! ### Per-variable statistics (data_manager.py, get_variable_stats) -/

/-- A filter value: a scalar or a value list (the `isin` branch). -/
inductive FVal where
  | one (v : Val)
  | many (vs : List Val)
deriving DecidableEq, Repr

/-- Python truthiness of a filter value (`if value:`). -/
def fvalTruthy : FVal → Bool
  | .one (.num q) => decide (q ≠ 0)
  | .one (.str s) => !(s.isEmpty)
  | .many vs => !vs.isEmpty

/-- `value != '전체'` — only a scalar string can equal the sentinel. -/
def fvalNotAll : FVal → Bool
  | .one (.str s) => s != "전체"
  | _ => true

/-- Elementwise `==` between a cell and a scalar (missing compares false). -/
def cellEq (c : Option Val) (v : Val) : Bool :=
  match c with
  | some w => decide (w = v)
  | none => false

/-- Elementwise `isin` between a cell and a value list. -/
def cellIsin (c : Option Val) (vs : List Val) : Bool :=
  match c with
  | some w => vs.contains w
  | none => false

/-- Keep the rows whose cell under `c` satisfies `p`. -/
def filterRows (df : DataFrame) (c : String) (p : Option Val → Bool) : DataFrame :=
  { cols := df.cols
    rows := df.rows.filter (fun r => p (cellAt df.cols r c)) }

/-- One filter entry of `get_variable_stats`. -/
def applyFilter (df : DataFrame) (kv : String × FVal) : DataFrame :=
  if fvalTruthy kv.2 && df.hasCol kv.1 && fvalNotAll kv.2 then
    match kv.2 with
    | .one v => filterRows df kv.1 (fun c => cellEq c v)
    | .many vs => filterRows df kv.1 (fun c => cellIsin c vs)
  else df

/-- The filter loop of `get_variable_stats`. -/
def applyFilters (df : DataFrame) (filters : List (String × FVal)) : DataFrame :=
  filters.foldl applyFilter df

/-- Numeric content of a cell (`dropna` on a numeric column). -/
def toNumCell : Option Val → Option ℚ
  | some (.num q) => some q
  | _ => none

/-- `is_numeric_dtype`: a column is numeric when no cell holds text
(an all-missing column is float dtype, hence numeric). -/
def isNumericCol (cells : List (Option Val)) : Bool :=
  cells.all (fun c => !isStrCell c)

/-- The non-missing numeric values of the filtered column, in row order;
the series `describe` and the histogram are computed from. -/
def validNums (cells : List (Option Val)) : List ℚ :=
  cells.filterMap toNumCell

/-- Sorted insertion of a rational, ascending. -/
def insertRat (x : ℚ) : List ℚ → List ℚ
  | [] => [x]
  | y :: t => if x ≤ y then x :: y :: t else y :: insertRat x t

/-- Ascending insertion sort of rationals. -/
def sortRat (l : List ℚ) : List ℚ :=
  l.foldl (fun acc x => insertRat x acc) []

/-- Linear-interpolation percentile on an ascending list (numpy /
pandas `describe` semantics); 0 on an empty list. -/
def percentileAt (sorted : List ℚ) (p : ℚ) : ℚ :=
  match sorted with
  | [] => 0
  | _ =>
      let n := sorted.length
      let pos : ℚ := p * ((n : ℚ) - 1)
      let lo : ℕ := (⌊pos⌋).toNat
      let frac : ℚ := pos - (⌊pos⌋ : ℚ)
      let x0 := sorted.getD lo 0
      let x1 := sorted.getD (lo + 1) x0
      x0 + frac * (x1 - x0)

/-- Python `round(x, k)` (half rounds up in this model; no theorem
depends on the half-way direction). -/
def roundTo (k : ℕ) (q : ℚ) : ℚ :=
  (round (q * (10 : ℚ) ^ k) : ℤ) / (10 : ℚ) ^ k

/-- Render a rational the way `f"{x:.1f}"` renders a float. -/
def fmt1 (q : ℚ) : String :=
  let n : ℤ := round (q * 10)
  let sign := if n < 0 then "-" else ""
  sign ++ toString (n.natAbs / 10) ++ "." ++ toString (n.natAbs % 10)

/-- The 10 right-closed intervals `pd.cut` produces for a non-empty
series with head `v` and tail `vs`: equal-width over `[min, max]`, the
lowest edge widened by 0.1% of the range (both edges widened when the
range is degenerate). -/
def cutBinsAux (v : ℚ) (vs : List ℚ) : List (ℚ × ℚ) :=
  let mn := vs.foldl min v
  let mx := vs.foldl max v
  if mn = mx then
    let lo := mn - (if mn = 0 then 1 / 1000 else |mn| / 1000)
    let hi := mx + (if mx = 0 then 1 / 1000 else |mx| / 1000)
    let step := (hi - lo) / 10
    (List.range 10).map (fun (j : ℕ) =>
      (lo + (j : ℚ) * step, lo + (j : ℚ) * step + step))
  else
    let step := (mx - mn) / 10
    let adj := (mx - mn) / 1000
    (List.range 10).map (fun (j : ℕ) =>
      ((if j = 0 then mn - adj else mn + (j : ℚ) * step),
       mn + (j : ℚ) * step + step))

/-- The bins of `pd.cut(valid, bins=10)` (empty on an empty series,
where the source's `pd.cut` raises inside its `try`). -/
def cutBins (valid : List ℚ) : List (ℚ × ℚ) :=
  match valid with
  | [] => []
  | v :: vs => cutBinsAux v vs

/-- Histogram entries: one `{name, value}` pair per bin, in interval
order (`value_counts` on a categorical reports every category).  Label
rendering models the source's `:.1f` formatting of the edges. -/
def cutDistribution (valid : List ℚ) : List (String × ℕ) :=
  (cutBins valid).map (fun b =>
    (fmt1 b.1 ++ " - " ++ fmt1 b.2,
     valid.countP (fun x => decide (b.1 < x) && decide (x ≤ b.2))))

/-- Total order used to model the sorted iteration order of `groupby`
keys (group keys in the datasets under the claims are homogeneous; a
mixed-type ordering would raise in the source). -/
def valLE : Val → Val → Bool
  | .num a, .num b => decide (a ≤ b)
  | .num _, .str _ => true
  | .str _, .num _ => false
  | .str a, .str b => decide (a ≤ b)

/-- Sorted insertion under `valLE`. -/
def insertVal (x : Val) : List Val → List Val
  | [] => [x]
  | y :: t => if valLE x y then x :: y :: t else y :: insertVal x t

/-- Insertion sort of values under `valLE`. -/
def sortVals (l : List Val) : List Val :=
  l.foldl (fun acc x => insertVal x acc) []

/-- The distinct `LOCATION_NAME` group keys in iteration order
(`groupby` drops missing keys and sorts). -/
def groupKeys (df : DataFrame) : List Val :=
  sortVals (uniqFirst ((df.colCells "LOCATION_NAME").filterMap id))

/-- The numeric variable values of one institution's rows, missing
dropped. -/
def groupValid (df : DataFrame) (v : String) (k : Val) : List ℚ :=
  validNums ((filterRows df "LOCATION_NAME" (fun c => cellEq c k)).colCells v)

/-- One row of the per-institution breakdown. -/
structure InstStat where
  name : Val
  min : ℚ
  q1 : ℚ
  median : ℚ
  q3 : ℚ
  max : ℚ
  count : ℕ
deriving DecidableEq, Repr

/-- The `stats` mapping of `get_variable_stats`.  Numeric-only and
categorical-only keys are `Option`s (`none` both for an absent key and
for a NaN statistic).  `var_s` carries the sample variance; the source
reports its square root, which stays definable from this field. -/
structure VarStats where
  n : ℕ
  missing : ℕ
  missing_pct : ℚ
  mean : Option ℚ
  var_s : Option ℚ
  min : Option ℚ
  max : Option ℚ
  q1 : Option ℚ
  median : Option ℚ
  q3 : Option ℚ
  unique_count : Option ℕ
deriving DecidableEq, Repr

/-- The report of `get_variable_stats`. -/
structure VarReport where
  varName : String
  is_numeric : Bool
  stats : VarStats
  distribution : List (String × ℕ)
  institution_stats : List InstStat
deriving DecidableEq, Repr

/-- Sample mean. -/
def meanOf (l : List ℚ) : ℚ :=
  l.sum / l.length

/-- Sample variance with one delta degree of freedom (`describe`'s `std`
squared). -/
def sampleVar (l : List ℚ) : ℚ :=
  (l.map (fun x => (x - meanOf l) ^ 2)).sum / ((l.length : ℚ) - 1)

/-- The per-institution breakdown: institutions whose values are all
missing contribute nothing (`if len(valid_g) > 0`). -/
def institutionStats (fdf : DataFrame) (v : String) : List InstStat :=
  (groupKeys fdf).filterMap (fun k =>
    let g := groupValid fdf v k
    if g.isEmpty then none
    else
      let s := sortRat g
      some { name := k
             min := s.headD 0
             q1 := percentileAt s (1 / 4)
             median := percentileAt s (1 / 2)
             q3 := percentileAt s (3 / 4)
             max := s.getLastD 0
             count := g.length })

/-- Top-20 categorical frequency entries, `str`-rendered names. -/
def topCategorical (cells : List (Option Val)) : List (String × ℕ) :=
  ((countPairs (cells.filterMap id)).take 20).map
    (fun p => (pyStrVal p.1, p.2))

/-- The report `get_variable_stats` assembles once the variable is known
to be a column. -/
def varReportOf (df : DataFrame) (v : String)
    (filters : List (String × FVal)) : VarReport :=
  let fdf := applyFilters df filters
  let series := fdf.colCells v
  let total := series.length
  let missing := series.countP (fun c => c.isNone)
  let nn := total - missing
  let is_numeric := isNumericCol (df.colCells v)
  let valid := validNums series
  let s := sortRat valid
  { varName := v
    is_numeric := is_numeric
    stats :=
      { n := nn
        missing := missing
        missing_pct := if total > 0 then roundTo 1 ((missing : ℚ) * 100 / total) else 0
        mean := if is_numeric && !valid.isEmpty then some (roundTo 2 (meanOf valid)) else none
        var_s := if is_numeric && valid.length ≥ 2 then some (sampleVar valid) else none
        min := if is_numeric && !valid.isEmpty then some (s.headD 0) else none
        max := if is_numeric && !valid.isEmpty then some (s.getLastD 0) else none
        q1 := if is_numeric && !valid.isEmpty then some (percentileAt s (1 / 4)) else none
        median := if is_numeric && !valid.isEmpty then some (percentileAt s (1 / 2)) else none
        q3 := if is_numeric && !valid.isEmpty then some (percentileAt s (3 / 4)) else none
        unique_count := if is_numeric then none else some (nuniqueCells series) }
    distribution :=
      if is_numeric then
        if nn > 0 then cutDistribution valid else []
      else topCategorical series
    institution_stats :=
      if fdf.hasCol "LOCATION_NAME" && is_numeric then institutionStats fdf v
      else [] }

/-- `DataManager.get_variable_stats` (with `self.df = df`): `none` when
the variable is not a column, otherwise the full report. -/
def get_variable_stats (df : DataFrame) (v : String)
    (filters : List (String × FVal)) : Option VarReport :=
  if df.hasCol v then some (varReportOf df v filters) else none

/-! ### Concrete tables used by witnesses and counterexamples -/

/-- A table without a `SUBJ_ID` column. -/
def dfNoSubj : DataFrame :=
  ⟨["LOCATION_NAME"], [[none]]⟩

/-- A table exercising every interesting `ENROLL_COPDNOTCOPD` value. -/
def dfEnrollW : DataFrame :=
  ⟨["ENROLL_COPDNOTCOPD"],
   [[some (.num 1)], [some (.num 2)], [some (.num 3)], [some (.num 4)],
    [none], [some (.str "X")]]⟩

/-- A table exercising the `AGE` boundaries. -/
def dfAgeW : DataFrame :=
  ⟨["AGE"], [[some (.num 39)], [some (.num 101)], [some (.num 40)],
             [some (.num 100)], [none]]⟩

/-- The empty table (no columns, no rows). -/
def dfEmpty : DataFrame := ⟨[], []⟩

/-- A table whose single row misses both identifier cells. -/
def dfMissW : DataFrame :=
  ⟨["SUBJ_ID", "LOCATION_NAME"], [[none, none]]⟩

/-- A table whose `AGE` column is constant. -/
def dfConstAge : DataFrame :=
  ⟨["AGE"], [[some (.num 5)], [some (.num 5)], [some (.num 5)]]⟩

/-- A table with a missing `SUBJ_STATUS` cell. -/
def dfStatusMut : DataFrame :=
  ⟨["SUBJ_ID", "SUBJ_STATUS"], [[some (.str "A"), none]]⟩

/-- A summary-exercising table: duplicate subject, unmapped status,
mixed enrollment representations. -/
def dfSummaryW : DataFrame :=
  ⟨["SUBJ_ID", "SUBJ_STATUS", "ENROLL_COPDNOTCOPD"],
   [[some (.str "A"), some (.str " Screening "), some (.num 1)],
    [some (.str "B"), none, some (.str "1.0")],
    [some (.str "C"), some (.str "Weird"), some (.num 4)],
    [some (.str "A"), some (.str "Death"), some (.str "X")]]⟩

/-- An institution-comparison table: institution `A` has only missing
`AGE` values and one row has a missing institution. -/
def dfInstW : DataFrame :=
  ⟨["LOCATION_NAME", "AGE"],
   [[some (.str "B"), some (.num 50)],
    [some (.str "A"), none],
    [some (.str "B"), some (.num 60)],
    [none, some (.num 70)]]⟩

/-! ### Claim-side predicates (written from the specification text) -/

/-- The claim's row predicate for `ENROLL-VAL-001`: value present and
not one of the numbers 1, 2, 3. -/
def enrollViolSpec : Option Val → Bool
  | none => false
  | some (.num q) => decide (¬(q = 1 ∨ q = 2 ∨ q = 3))
  | some (.str _) => true

/-- The claim's row predicate for `AGE-RANGE-001`: `AGE` present and
below 40 or above 100. -/
def ageViolSpec : Option Val → Bool
  | some (.num q) => decide (q < 40 ∨ q > 100)
  | _ => false

/-! ### Basic lemmas about column lookup -/

theorem findIdx?_some_spec (p : α → Bool) :
    ∀ (l : List α) (i : ℕ), l.findIdx? p = some i →
      ∃ hi : i < l.length, p (l.get ⟨i, hi⟩) = true := by
  intro l
  induction l with
  | nil => intro i h; simp [List.findIdx?] at h
  | cons a t ih =>
    intro i h
    rw [List.findIdx?_cons] at h
    by_cases hp : p a
    · simp [hp] at h
      subst h
      exact ⟨by simp, by simpa using hp⟩
    · simp [hp] at h
      obtain ⟨j, hj, rfl⟩ := h
      obtain ⟨hi, hpi⟩ := ih j hj
      exact ⟨by simpa using hi, by simpa using hpi⟩

theorem colIdx_eq_none_iff (cols : List String) (c : String) :
    colIdx cols c = none ↔ cols.contains c = false := by
  unfold colIdx
  rw [List.findIdx?_eq_none_iff]
  constructor
  · intro h
    by_contra hc
    have hmem : c ∈ cols := by
      simpa using Bool.of_not_eq_false hc
    have := h c hmem
    simp at this
  · intro h x hx
    have hne : x ≠ c := by
      rintro rfl
      have : x ∈ cols := hx
      simp [List.contains_eq_any_beq] at h
      exact absurd this (by simpa using h)
    simpa using hne

theorem colIdx_isSome_of_hasCol {df : DataFrame} {c : String}
    (h : df.hasCol c = true) : ∃ i, colIdx df.cols c = some i := by
  cases hidx : colIdx df.cols c with
  | none =>
    have hfalse := (colIdx_eq_none_iff df.cols c).mp hidx
    rw [DataFrame.hasCol, hfalse] at h
    cases h
  | some i => exact ⟨i, rfl⟩

theorem colIdx_name {cols : List String} {c : String} {i : ℕ}
    (h : colIdx cols c = some i) :
    ∃ hi : i < cols.length, cols.get ⟨i, hi⟩ = c := by
  obtain ⟨hi, hp⟩ := findIdx?_some_spec _ cols i h
  exact ⟨hi, by simpa using hp⟩

theorem seriesGet_absent {cols : List String} {row : List (Option Val)}
    {c : String} {d : Val} (h : cols.contains c = false) :
    seriesGet cols row c d = some d := by
  unfold seriesGet
  rw [(colIdx_eq_none_iff cols c).mpr h]

theorem seriesGet_present {cols : List String} {row : List (Option Val)}
    {c : String} {d : Val} (h : cols.contains c = true) :
    seriesGet cols row c d = cellAt cols row c := by
  unfold seriesGet cellAt
  cases hidx : colIdx cols c with
  | none =>
    have := (colIdx_eq_none_iff cols c).mp hidx
    rw [this] at h
    cases h
  | some i => rfl

/-! ### Lemmas about rule evaluation -/

theorem filter_zip_const_false (l : List (List (Option Val))) :
    ((l.zip (l.map (fun _ => false))).filter (fun p => p.2)) = [] := by
  induction l with
  | nil => rfl
  | cons a t ih => simpa using ih

theorem checkMiss_absent {df : DataFrame} {c : String}
    (h : df.hasCol c = false) : checkMiss c df = .error "KeyError" := by
  unfold checkMiss
  rw [(colIdx_eq_none_iff df.cols c).mpr h]

theorem ruleViolations_checkMiss_absent {df : DataFrame} {rule : Rule}
    {c : String} (hc : rule.check = checkMiss c) (h : df.hasCol c = false) :
    ruleViolations df rule = [] := by
  unfold ruleViolations
  rw [hc, checkMiss_absent h]

theorem checkAgeRange_absent {df : DataFrame} (h : df.hasCol "AGE" = false) :
    checkAgeRange df = .ok (df.rows.map (fun _ => false)) := by
  unfold checkAgeRange
  rw [h]
  simp

theorem ruleViolations_age_absent {df : DataFrame}
    (h : df.hasCol "AGE" = false) : ruleViolations df ageRangeRule = [] := by
  unfold ruleViolations
  have hc : ageRangeRule.check = checkAgeRange := rfl
  rw [hc, checkAgeRange_absent h]
  simpa using filter_zip_const_false df.rows

theorem checkEnrollVal_absent {df : DataFrame}
    (h : df.hasCol "ENROLL_COPDNOTCOPD" = false) :
    checkEnrollVal df = .ok (df.rows.map (fun _ => false)) := by
  unfold checkEnrollVal
  rw [h]
  simp

theorem ruleViolations_enroll_absent {df : DataFrame}
    (h : df.hasCol "ENROLL_COPDNOTCOPD" = false) :
    ruleViolations df enrollValRule = [] := by
  unfold ruleViolations
  have hc : enrollValRule.check = checkEnrollVal := rfl
  rw [hc, checkEnrollVal_absent h]
  simpa using filter_zip_const_false df.rows

theorem checkEnrollVal_present {df : DataFrame}
    (h : df.hasCol "ENROLL_COPDNOTCOPD" = true) :
    checkEnrollVal df =
      .ok ((df.colCells "ENROLL_COPDNOTCOPD").map
        (fun c => !(isinOneTwoThree c) && c.isSome)) := by
  unfold checkEnrollVal
  rw [h]
  simp

/-- C1: `run_qc` evaluates every rule of the registry in order and a
rule whose predicate raises is skipped, contributing no violations while
every other rule still contributes its own; in particular each registry
rule whose target variable is absent from the table contributes zero
violations and removing it from the registry does not change the output. -/
theorem run_qc_rule_isolation :
    (∀ (df : DataFrame) (pre post : List Rule) (rule : Rule) (e : String),
        rule.check df = .error e →
        run_qc (pre ++ rule :: post) df = run_qc (pre ++ post) df)
    ∧ (∀ (df : DataFrame) (rule : Rule), rule ∈ qcRules →
        df.hasCol rule.targetVar = false →
        ruleViolations df rule = []
        ∧ run_qc qcRules df =
            run_qc (qcRules.filter (fun r => r.id != rule.id)) df) := by
  constructor
  · intro df pre post rule e herr
    have hnil : ruleViolations df rule = [] := by
      unfold ruleViolations
      rw [herr]
    simp [run_qc, hnil]
  · intro df rule hmem hcol
    simp only [qcRules, List.mem_cons, List.not_mem_nil, or_false] at hmem
    rcases hmem with rfl | rfl | rfl | rfl
    · have hnil : ruleViolations df subjMissRule1 = [] :=
        ruleViolations_checkMiss_absent rfl hcol
      refine ⟨hnil, ?_⟩
      have hfilter : qcRules.filter (fun r => r.id != subjMissRule1.id) =
          [subjMissRule2, ageRangeRule, enrollValRule] := rfl
      rw [hfilter]
      simp [run_qc, qcRules, hnil]
    · have hnil : ruleViolations df subjMissRule2 = [] :=
        ruleViolations_checkMiss_absent rfl hcol
      refine ⟨hnil, ?_⟩
      have hfilter : qcRules.filter (fun r => r.id != subjMissRule2.id) =
          [subjMissRule1, ageRangeRule, enrollValRule] := rfl
      rw [hfilter]
      simp [run_qc, qcRules, hnil]
    · have hnil : ruleViolations df ageRangeRule = [] :=
        ruleViolations_age_absent hcol
      refine ⟨hnil, ?_⟩
      have hfilter : qcRules.filter (fun r => r.id != ageRangeRule.id) =
          [subjMissRule1, subjMissRule2, enrollValRule] := rfl
      rw [hfilter]
      simp [run_qc, qcRules, hnil]
    · have hnil : ruleViolations df enrollValRule = [] :=
        ruleViolations_enroll_absent hcol
      refine ⟨hnil, ?_⟩
      have hfilter : qcRules.filter (fun r => r.id != enrollValRule.id) =
          [subjMissRule1, subjMissRule2, ageRangeRule] := rfl
      rw [hfilter]
      simp [run_qc, qcRules, hnil]

/-- Witness for C1 on a table without `SUBJ_ID`: the raising rule
contributes nothing and `SUBJ-MISS-002` still fires. -/
theorem run_qc_rule_isolation_witness :
    dfNoSubj.hasCol subjMissRule1.targetVar = false
    ∧ ruleViolations dfNoSubj subjMissRule1 = []
    ∧ run_qc qcRules dfNoSubj =
        run_qc (qcRules.filter (fun r => r.id != subjMissRule1.id)) dfNoSubj
    ∧ (run_qc qcRules dfNoSubj).map (fun v => v.rule_id) = ["SUBJ-MISS-002"] := by
  have h := run_qc_rule_isolation.2 dfNoSubj subjMissRule1
    (List.mem_cons_self _ _) rfl
  exact ⟨rfl, h.1, h.2, by decide⟩

/-- C2: on any table with the `ENROLL_COPDNOTCOPD` column, the
`ENROLL-VAL-001` mask flags exactly the rows whose value is present and
not one of the numbers 1, 2, 3; in particular 1, 2, 3 are not flagged,
4 is flagged (despite being the valid `PRISm` display code elsewhere),
and a missing value is not flagged. -/
theorem enroll_val_rule_semantics :
    (∀ df : DataFrame, df.hasCol "ENROLL_COPDNOTCOPD" = true →
        enrollValRule.check df =
          .ok ((df.colCells "ENROLL_COPDNOTCOPD").map enrollViolSpec))
    ∧ enrollViolSpec (some (.num 1)) = false
    ∧ enrollViolSpec (some (.num 2)) = false
    ∧ enrollViolSpec (some (.num 3)) = false
    ∧ enrollViolSpec (some (.num 4)) = true
    ∧ enrollViolSpec none = false := by
  refine ⟨?_, by decide, by decide, by decide, by decide, rfl⟩
  intro df h
  have hc : enrollValRule.check = checkEnrollVal := rfl
  rw [hc, checkEnrollVal_present h]
  congr 1
  apply List.map_congr_left
  intro c _
  cases c with
  | none => rfl
  | some v =>
    cases v with
    | str s => rfl
    | num q =>
      by_cases h1 : q = 1 <;> by_cases h2 : q = 2 <;> by_cases h3 : q = 3 <;>
        simp [isinOneTwoThree, enrollViolSpec, h1, h2, h3]

/-- Witness for C2: the mask on a table holding 1, 2, 3, 4, missing and
a text value. -/
theorem enroll_val_rule_semantics_witness :
    dfEnrollW.hasCol "ENROLL_COPDNOTCOPD" = true
    ∧ enrollValRule.check dfEnrollW = .ok [false, false, false, true, false, true] := by
  refine ⟨rfl, ?_⟩
  rw [enroll_val_rule_semantics.1 dfEnrollW rfl]
  rfl

/-- C3: the `AGE-RANGE-001` mask flags exactly the rows where `AGE` is
present and below 40 or above 100 (on a numeric column, i.e. one without
text cells); ages 39 and 101 are flagged, 40 and 100 are not, a missing
value is not, and when the `AGE` column is absent the rule yields an
all-false mask and zero violations. -/
theorem age_range_rule_semantics :
    (∀ df : DataFrame, df.hasCol "AGE" = true →
        (df.colCells "AGE").any isStrCell = false →
        ageRangeRule.check df = .ok ((df.colCells "AGE").map ageViolSpec))
    ∧ (∀ df : DataFrame, df.hasCol "AGE" = false →
        ageRangeRule.check df = .ok (df.rows.map (fun _ => false))
        ∧ ruleViolations df ageRangeRule = [])
    ∧ ageViolSpec (some (.num 39)) = true
    ∧ ageViolSpec (some (.num 101)) = true
    ∧ ageViolSpec (some (.num 40)) = false
    ∧ ageViolSpec (some (.num 100)) = false
    ∧ ageViolSpec none = false := by
  refine ⟨?_, ?_, by decide, by decide, by decide, by decide, rfl⟩
  · intro df h hstr
    have hc : ageRangeRule.check = checkAgeRange := rfl
    rw [hc]
    unfold checkAgeRange
    rw [h]
    simp only [if_true]
    rw [hstr]
    simp only [Bool.false_eq_true, if_false]
    congr 1
    apply List.map_congr_left
    intro c _
    cases c with
    | none => rfl
    | some v =>
      cases v with
      | str s => rfl
      | num q =>
        by_cases h1 : q < 40 <;> by_cases h2 : q > 100 <;>
          simp [ageViolSpec, h1, h2]
  · intro df h
    exact ⟨checkAgeRange_absent h, ruleViolations_age_absent h⟩

/-- Witness for C3: the mask on ages 39, 101, 40, 100 and missing. -/
theorem age_range_rule_semantics_witness :
    dfAgeW.hasCol "AGE" = true
    ∧ ageRangeRule.check dfAgeW = .ok [true, true, false, false, false] := by
  refine ⟨rfl, ?_⟩
  rw [age_range_rule_semantics.1 dfAgeW rfl rfl]
  rfl

/-! ### Idempotence of stripping and cell normalization -/

theorem dropWhile_dropWhile (p : Char → Bool) (l : List Char) :
    (l.dropWhile p).dropWhile p = l.dropWhile p := by
  induction l with
  | nil => rfl
  | cons a t ih =>
    by_cases h : p a
    · rw [List.dropWhile_cons_of_pos h]
      exact ih
    · rw [List.dropWhile_cons_of_neg h, List.dropWhile_cons_of_neg h]

theorem dropWhile_eq_self_of_append {p : Char → Bool} {x y : List Char}
    (H : (x ++ y).dropWhile p = x ++ y) : x.dropWhile p = x := by
  cases x with
  | nil => rfl
  | cons b bs =>
    have hb : ¬ p b = true := by
      intro hb2
      have hlen := congrArg List.length H
      rw [List.cons_append, List.dropWhile_cons_of_pos hb2] at hlen
      have hle := (List.dropWhile_sublist (l := bs ++ y) p).length_le
      rw [hlen] at hle
      simp at hle
    rw [List.dropWhile_cons_of_neg hb]

theorem dropWhile_reverse_clean (p : Char → Bool) :
    ∀ l : List Char, l.reverse.dropWhile p = l.reverse →
      ((l.dropWhile p).reverse).dropWhile p = (l.dropWhile p).reverse := by
  intro l
  induction l with
  | nil => intro _; rfl
  | cons a t ih =>
    intro H
    rw [List.reverse_cons] at H
    by_cases h : p a
    · rw [List.dropWhile_cons_of_pos h]
      exact ih (dropWhile_eq_self_of_append H)
    · rw [List.dropWhile_cons_of_neg h, List.reverse_cons]
      exact H

theorem stripChars_idem (l : List Char) : stripChars (stripChars l) = stripChars l := by
  unfold stripChars
  rw [dropWhile_reverse_clean Char.isWhitespace (l.dropWhile Char.isWhitespace).reverse
    (by rw [List.reverse_reverse]; exact dropWhile_dropWhile _ l)]
  rw [List.reverse_reverse, dropWhile_dropWhile]

theorem pyStrip_idem (s : String) : pyStrip (pyStrip s) = pyStrip s :=
  congrArg String.mk (stripChars_idem s.data)

theorem normCell_normCell (c : Option Val) : normCell (normCell c) = normCell c := by
  show some (Val.str (pyStrip (pyStrip (pyStr c)))) = some (Val.str (pyStrip (pyStr c)))
  rw [pyStrip_idem]

/-! ### Lemmas about in-place column updates -/

theorem mapCol_absent {df : DataFrame} {c : String} {f : Option Val → Option Val}
    (h : colIdx df.cols c = none) : mapCol df c f = df := by
  unfold mapCol
  rw [h]

theorem mapCol_present {df : DataFrame} {c : String} {f : Option Val → Option Val}
    {i : ℕ} (h : colIdx df.cols c = some i) :
    mapCol df c f =
      ⟨df.cols, df.rows.map (fun r => r.set i (f ((r.get? i).join)))⟩ := by
  unfold mapCol
  rw [h]

theorem mapCol_cols (df : DataFrame) (c : String) (f : Option Val → Option Val) :
    (mapCol df c f).cols = df.cols := by
  cases h : colIdx df.cols c with
  | none => rw [mapCol_absent h]
  | some i => rw [mapCol_present h]

theorem hasCol_mapCol (df : DataFrame) (c : String) (f : Option Val → Option Val)
    (c' : String) : (mapCol df c f).hasCol c' = df.hasCol c' := by
  unfold DataFrame.hasCol
  rw [mapCol_cols]

theorem colCells_mapCol_ne {df : DataFrame} {c c' : String}
    {f : Option Val → Option Val} (h : c ≠ c') :
    (mapCol df c f).colCells c' = df.colCells c' := by
  unfold DataFrame.colCells
  rw [mapCol_cols]
  cases hj : colIdx df.cols c' with
  | none => rfl
  | some j =>
    cases hidx : colIdx df.cols c with
    | none => rw [mapCol_absent hidx]
    | some i =>
      obtain ⟨hi, hci⟩ := colIdx_name hidx
      obtain ⟨hjlt, hcj⟩ := colIdx_name hj
      have hne : i ≠ j := by
        intro e
        subst e
        exact h (hci.symm.trans hcj)
      rw [mapCol_present hidx]
      simp only [List.map_map]
      apply List.map_congr_left
      intro r _
      simp only [Function.comp_apply]
      congr 1
      simp only [List.get?_eq_getElem?]
      rw [List.getElem?_set_ne hne]

theorem colCells_mapCol_self {df : DataFrame} {c : String}
    {f : Option Val → Option Val} (hwf : df.wf) :
    (mapCol df c f).colCells c = (df.colCells c).map f := by
  unfold DataFrame.colCells
  rw [mapCol_cols]
  cases hidx : colIdx df.cols c with
  | none => rfl
  | some i =>
    obtain ⟨hi, _⟩ := colIdx_name hidx
    rw [mapCol_present hidx]
    simp only [List.map_map]
    apply List.map_congr_left
    intro r hr
    simp only [Function.comp_apply]
    have hlen : i < r.length := by rw [hwf r hr]; exact hi
    simp only [List.get?_eq_getElem?, List.getElem?_set_self',
      List.getElem?_eq_getElem hlen]
    rfl

theorem mapCol_wf {df : DataFrame} {c : String} {f : Option Val → Option Val}
    (h : df.wf) : (mapCol df c f).wf := by
  cases hidx : colIdx df.cols c with
  | none => rw [mapCol_absent hidx]; exact h
  | some i =>
    rw [mapCol_present hidx]
    intro r hr
    obtain ⟨r0, hr0, rfl⟩ := List.mem_map.mp hr
    simpa [List.length_set] using h r0 hr0

theorem mapCol_mapCol_self {df : DataFrame} {c : String}
    {f g : Option Val → Option Val} (hwf : df.wf) :
    mapCol (mapCol df c f) c g = mapCol df c (fun x => g (f x)) := by
  cases hidx : colIdx df.cols c with
  | none => simp only [mapCol_absent hidx]
  | some i =>
    obtain ⟨hi, _⟩ := colIdx_name hidx
    rw [mapCol_present (f := f) hidx, mapCol_present (f := fun x => g (f x)) hidx]
    have h2 : colIdx (⟨df.cols,
        df.rows.map (fun r => r.set i (f ((r.get? i).join)))⟩ : DataFrame).cols c
        = some i := hidx
    rw [mapCol_present h2]
    simp only [DataFrame.mk.injEq, true_and, List.map_map]
    apply List.map_congr_left
    intro r hr
    simp only [Function.comp_apply]
    have hlen : i < r.length := by rw [hwf r hr]; exact hi
    simp only [List.get?_eq_getElem?, List.getElem?_set_self',
      List.getElem?_eq_getElem hlen]
    rw [List.set_set]
    rfl

theorem mapCol_comm {df : DataFrame} {c c' : String}
    {f g : Option Val → Option Val} (h : c ≠ c') :
    mapCol (mapCol df c f) c' g = mapCol (mapCol df c' g) c f := by
  cases hidx : colIdx df.cols c with
  | none =>
    rw [mapCol_absent hidx]
    have h2 : colIdx (mapCol df c' g).cols c = none := by
      rw [mapCol_cols]; exact hidx
    rw [mapCol_absent h2]
  | some i =>
    cases hj : colIdx df.cols c' with
    | none =>
      rw [mapCol_absent hj]
      have h2 : colIdx (mapCol df c f).cols c' = none := by
        rw [mapCol_cols]; exact hj
      rw [mapCol_absent h2]
    | some j =>
      obtain ⟨hi, hci⟩ := colIdx_name hidx
      obtain ⟨hjlt, hcj⟩ := colIdx_name hj
      have hne : i ≠ j := by
        intro e
        subst e
        exact h (hci.symm.trans hcj)
      rw [mapCol_present (f := f) hidx, mapCol_present (f := g) hj]
      have h2 : colIdx (⟨df.cols,
          df.rows.map (fun r => r.set i (f ((r.get? i).join)))⟩ : DataFrame).cols c'
          = some j := hj
      have h3 : colIdx (⟨df.cols,
          df.rows.map (fun r => r.set j (g ((r.get? j).join)))⟩ : DataFrame).cols c
          = some i := hidx
      rw [mapCol_present h2, mapCol_present h3]
      simp only [DataFrame.mk.injEq, true_and, List.map_map]
      apply List.map_congr_left
      intro r _
      simp only [Function.comp_apply, List.get?_eq_getElem?]
      rw [List.getElem?_set_ne hne, List.getElem?_set_ne (Ne.symm hne),
        List.set_comm _ _ _ hne]

/-! ### Lemmas about the summary distributions -/

theorem foldl_fill_noop :
    ∀ (ks : List String) (acc : List (String × ℕ)),
      (∀ k ∈ ks, (acc.map Prod.fst).contains k = true) →
      ks.foldl (fun acc k =>
        if (acc.map Prod.fst).contains k then acc else acc ++ [(k, 0)]) acc = acc := by
  intro ks
  induction ks with
  | nil => intro acc _; rfl
  | cons a t ih =>
    intro acc h
    have ha := h a (List.mem_cons_self a t)
    simp only [List.foldl_cons, ha, if_true]
    exact ih acc (fun k hk => h k (List.mem_cons_of_mem a hk))

theorem subjStatusCounts_spec (df : DataFrame) :
    (subjStatusCounts df).map Prod.fst = statusTargetOrder
    ∧ ∀ p ∈ subjStatusCounts df,
        p.2 = (mappedStatusVals df).count (some (.str p.1)) := by
  have hfilter : statusTargetOrder.filter
      (fun k => statusTargetOrder.contains k
        || (mappedStatusVals df).contains (some (.str k))) = statusTargetOrder := by
    apply List.filter_eq_self.mpr
    intro k hk
    have hc : statusTargetOrder.contains k = true := by simpa using hk
    simp only [hc, Bool.true_or]
  have hbase : subjStatusCounts df =
      statusTargetOrder.map
        (fun k => (k, (mappedStatusVals df).count (some (.str k)))) := by
    unfold subjStatusCounts
    simp only
    rw [hfilter]
    apply foldl_fill_noop
    intro k hk
    rw [List.map_map]
    simpa using hk
  rw [hbase]
  constructor
  · rw [List.map_map]
    exact List.map_id _
  · intro p hp
    obtain ⟨k, hk, rfl⟩ := List.mem_map.mp hp
    rfl

theorem enrollCounts_spec (df : DataFrame) :
    (enrollCounts df).map Prod.fst = enrollTargetOrder
    ∧ ∀ p ∈ enrollCounts df, p.2 = (mappedEnrollVals df).count (some p.1) := by
  constructor
  · unfold enrollCounts
    rw [List.map_map]
    exact List.map_id _
  · intro p hp
    unfold enrollCounts at hp
    obtain ⟨k, hk, rfl⟩ := List.mem_map.mp hp
    rfl

/-- C4 (amended): whenever the grouping columns are present —
`SUBJ_STATUS` with `SUBJ_ID` for the status distribution,
`ENROLL_COPDNOTCOPD` for the enrollment distribution — `get_summary`
returns distributions whose keys are exactly the canonical labels in
canonical order, each count the (ℕ-valued, hence non-negative) number of
mapped rows, which is 0 when no row maps to the label.  When the columns
are absent the distribution is the empty mapping instead. -/
theorem summary_distribution_keys :
    ∀ df : DataFrame,
      (df.hasCol "SUBJ_STATUS" = true → df.hasCol "SUBJ_ID" = true →
        ((get_summary df).1.subj_status.map Prod.fst = statusTargetOrder
         ∧ ∀ p ∈ (get_summary df).1.subj_status,
             p.2 = (mappedStatusVals (statusNormalized df)).count (some (.str p.1))))
      ∧ (df.hasCol "ENROLL_COPDNOTCOPD" = true →
        ((get_summary df).1.enroll_copd.map Prod.fst = enrollTargetOrder
         ∧ ∀ p ∈ (get_summary df).1.enroll_copd,
             p.2 = (mappedEnrollVals (statusNormalized df)).count (some p.1))) := by
  intro df
  constructor
  · intro h1 h2
    have he : (get_summary df).1.subj_status
        = subjStatusCounts (statusNormalized df) := by
      show (if df.hasCol "SUBJ_STATUS" && df.hasCol "SUBJ_ID"
            then subjStatusCounts (statusNormalized df) else [])
          = subjStatusCounts (statusNormalized df)
      rw [h1, h2]
      rfl
    rw [he]
    exact subjStatusCounts_spec (statusNormalized df)
  · intro h
    have he : (get_summary df).1.enroll_copd
        = enrollCounts (statusNormalized df) := by
      show (if df.hasCol "ENROLL_COPDNOTCOPD"
            then enrollCounts (statusNormalized df) else [])
          = enrollCounts (statusNormalized df)
      rw [h]
      rfl
    rw [he]
    exact enrollCounts_spec (statusNormalized df)

/-- C4 counterexample: on a table without those columns the
distributions are empty mappings, not the canonical four-label
mappings, so the unconditional claim fails. -/
theorem summary_distribution_keys_cex :
    (get_summary dfEmpty).1.subj_status = []
    ∧ (get_summary dfEmpty).1.enroll_copd = []
    ∧ ¬((get_summary dfEmpty).1.subj_status.map Prod.fst = statusTargetOrder)
    ∧ ¬((get_summary dfEmpty).1.enroll_copd.map Prod.fst = enrollTargetOrder) := by
  exact ⟨rfl, rfl, by decide, by decide⟩

/-- Witness for C4 on a populated table. -/
theorem summary_distribution_keys_witness :
    (get_summary dfSummaryW).1.subj_status.map Prod.fst = statusTargetOrder
    ∧ (get_summary dfSummaryW).1.enroll_copd.map Prod.fst = enrollTargetOrder :=
  ⟨((summary_distribution_keys dfSummaryW).1 rfl rfl).1,
   ((summary_distribution_keys dfSummaryW).2 rfl).1⟩

/-- C5: `normalize_enroll` maps the numeric value 1 (covering the Python
representations `1` and `1.0`, which are the same rational) and the
strings `"1"` and `"1.0"` all to the canonical code `"1"`; a missing
cell normalizes to `"nan"`; and any string that fails float coercion
falls back to its raw form, which is never one of the four mapped codes,
so it is excluded from the canonical counts — and the normalizer is a
total function, so the computation cannot fail. -/
theorem normalize_enroll_spec :
    normalize_enroll (some (.num 1)) = "1"
    ∧ normalize_enroll (some (.str "1")) = "1"
    ∧ normalize_enroll (some (.str "1.0")) = "1"
    ∧ normalize_enroll none = "nan"
    ∧ (∀ s : String, parsePyFloat s = none →
        normalize_enroll (some (.str s)) = s ∧ enrollLabel s = none) := by
  refine ⟨by with_unfolding_all decide, by decide,
    by with_unfolding_all decide, rfl, ?_⟩
  intro s hs
  constructor
  · simp [normalize_enroll, pyFloatOfVal, hs, pyStrVal]
  · cases hf : enrollMapPairs.find? (fun p => p.1 == s) with
    | none => simp [enrollLabel, hf]
    | some pr =>
      have hmem := List.mem_of_find?_eq_some hf
      have hpred := List.find?_some hf
      have hs1 : pr.1 = s := by simpa using hpred
      have hcases : s = "1" ∨ s = "2" ∨ s = "3" ∨ s = "4" := by
        rw [← hs1]
        simp only [enrollMapPairs, List.mem_cons, List.not_mem_nil, or_false] at hmem
        rcases hmem with h | h | h | h <;> rw [h]
        · exact Or.inl rfl
        · exact Or.inr (Or.inl rfl)
        · exact Or.inr (Or.inr (Or.inl rfl))
        · exact Or.inr (Or.inr (Or.inr rfl))
      rcases hcases with rfl | rfl | rfl | rfl <;> exact absurd hs (by decide)

/-- Witness for C5 at the non-coercible value `"X"`. -/
theorem normalize_enroll_spec_witness :
    parsePyFloat "X" = none
    ∧ normalize_enroll (some (.str "X")) = "X"
    ∧ enrollLabel "X" = none := by
  have h := normalize_enroll_spec.2.2.2.2 "X" (by decide)
  exact ⟨by decide, h.1, h.2⟩

/-- C6 (amended): for every table, `total_errors` equals the number of
violations `run_qc` produced; an empty violation list yields the report
with zero counts, empty mappings and `error_rate` 0 (never a null
substructure); a non-empty violation list yields a report in which the
`error_rate` key is absent (the source emits it only in the empty
branch). -/
theorem get_stats_report_shape :
    ∀ df : DataFrame,
      (get_stats (run_qc qcRules df)).total_errors = (run_qc qcRules df).length
      ∧ (run_qc qcRules df = [] →
          get_stats (run_qc qcRules df) =
            { total_errors := 0, error_rate := some 0,
              severity_counts := [], domain_counts := [] })
      ∧ (run_qc qcRules df ≠ [] →
          (get_stats (run_qc qcRules df)).error_rate = none) := by
  intro df
  cases hq : run_qc qcRules df with
  | nil => exact ⟨rfl, fun _ => rfl, fun hne => absurd rfl hne⟩
  | cons a t => exact ⟨rfl, fun he => (List.cons_ne_nil a t he).elim, fun _ => rfl⟩

/-- C6 counterexample: a table producing two violations gets a report
with no `error_rate` entry, refuting "contains an error_rate field equal
to 0" for every dataset. -/
theorem get_stats_error_rate_cex :
    (run_qc qcRules dfMissW).length = 2
    ∧ (get_stats (run_qc qcRules dfMissW)).error_rate = none
    ∧ (get_stats (run_qc qcRules dfMissW)).error_rate ≠ some 0 := by
  exact ⟨rfl, rfl, by decide⟩

/-- Witness for C6 on the empty table and a violating table. -/
theorem get_stats_report_shape_witness :
    get_stats (run_qc qcRules dfEmpty) =
      { total_errors := 0, error_rate := some 0,
        severity_counts := [], domain_counts := [] }
    ∧ (get_stats (run_qc qcRules dfMissW)).error_rate = none := by
  refine ⟨(get_stats_report_shape dfEmpty).2.1 rfl,
    (get_stats_report_shape dfMissW).2.2 ?_⟩
  decide

/-- C7 (amended): every violation `run_qc` emits originates from a rule
of the registry and a row of the table, and its context fields follow
`Series.get` semantics: `LOCATION_NAME`, `SUBJ_ID`, `VISIT_NM` hold the
literal `"Unknown"` exactly when the respective column is absent from
the table (a present-but-missing cell is carried as the missing value),
and `current_value` holds `"Missing"` exactly when the rule's target
column is absent, otherwise the stringification of the row's cell
(which is `"nan"` for a missing cell). -/
theorem violation_field_provenance :
    ∀ (df : DataFrame) (rules : List Rule) (v : Violation),
      v ∈ run_qc rules df →
      ∃ rule ∈ rules, ∃ row ∈ df.rows,
        v = mkViolation df rule row
        ∧ (df.hasCol "LOCATION_NAME" = false → v.location = some (.str "Unknown"))
        ∧ (df.hasCol "LOCATION_NAME" = true →
            v.location = cellAt df.cols row "LOCATION_NAME")
        ∧ (df.hasCol "SUBJ_ID" = false → v.subjId = some (.str "Unknown"))
        ∧ (df.hasCol "SUBJ_ID" = true → v.subjId = cellAt df.cols row "SUBJ_ID")
        ∧ (df.hasCol "VISIT_NM" = false → v.visitNm = some (.str "Unknown"))
        ∧ (df.hasCol "VISIT_NM" = true → v.visitNm = cellAt df.cols row "VISIT_NM")
        ∧ (df.hasCol rule.targetVar = false → v.current_value = "Missing")
        ∧ (df.hasCol rule.targetVar = true →
            v.current_value = pyStr (cellAt df.cols row rule.targetVar)) := by
  intro df rules v hv
  unfold run_qc at hv
  obtain ⟨l, hl, hvl⟩ := List.mem_flatten.mp hv
  obtain ⟨rule, hrule, rfl⟩ := List.mem_map.mp hl
  unfold ruleViolations at hvl
  cases hchk : rule.check df with
  | error e =>
    rw [hchk] at hvl
    exact absurd hvl (List.not_mem_nil v)
  | ok mask =>
    rw [hchk] at hvl
    obtain ⟨p, hp, rfl⟩ := List.mem_map.mp hvl
    have hpz := List.mem_filter.mp hp
    have hrow : p.1 ∈ df.rows := (List.of_mem_zip hpz.1).1
    refine ⟨rule, hrule, p.1, hrow, rfl, ?_, ?_, ?_, ?_, ?_, ?_, ?_, ?_⟩
    · intro h
      exact seriesGet_absent h
    · intro h
      exact seriesGet_present h
    · intro h
      exact seriesGet_absent h
    · intro h
      exact seriesGet_present h
    · intro h
      exact seriesGet_absent h
    · intro h
      exact seriesGet_present h
    · intro h
      show pyStr (seriesGet df.cols p.1 rule.targetVar (.str "Missing")) = "Missing"
      rw [seriesGet_absent h]
      rfl
    · intro h
      show pyStr (seriesGet df.cols p.1 rule.targetVar (.str "Missing"))
          = pyStr (cellAt df.cols p.1 rule.targetVar)
      rw [seriesGet_present h]

/-- C7 counterexample: on a table whose single row misses both
`SUBJ_ID` and `LOCATION_NAME` cells (both columns present), the emitted
violations carry the missing value, not `"Unknown"`, and `current_value`
is `"nan"`, not `"Missing"`; so substitution keyed on a missing value
does not happen. -/
theorem violation_missing_fields_cex :
    (run_qc qcRules dfMissW).map (fun v => (v.location, v.current_value))
      = [(none, "nan"), (none, "nan")]
    ∧ ¬(∀ v ∈ run_qc qcRules dfMissW, v.location = some (.str "Unknown"))
    ∧ ¬(∀ v ∈ run_qc qcRules dfMissW, v.current_value = "Missing") := by
  exact ⟨rfl, by decide, by decide⟩

/-- Witness for C7: the first violation of the same table is traced back
to its rule and row by the provenance theorem. -/
theorem violation_field_provenance_witness :
    ∃ rule ∈ qcRules, ∃ row ∈ dfMissW.rows,
      mkViolation dfMissW subjMissRule1 [none, none] = mkViolation dfMissW rule row := by
  obtain ⟨rule, hrule, row, hrow, heq, _⟩ :=
    violation_field_provenance dfMissW qcRules
      (mkViolation dfMissW subjMissRule1 [none, none]) (by decide)
  exact ⟨rule, hrule, row, hrow, heq⟩

/-! ### Lemmas about filtering and the histogram -/

theorem applyFilter_cols (df : DataFrame) (kv : String × FVal) :
    (applyFilter df kv).cols = df.cols := by
  unfold applyFilter
  split
  · split <;> rfl
  · rfl

theorem applyFilters_cols (df : DataFrame) (fs : List (String × FVal)) :
    (applyFilters df fs).cols = df.cols := by
  induction fs generalizing df with
  | nil => rfl
  | cons kv t ih =>
    show (applyFilters (applyFilter df kv) t).cols = df.cols
    rw [ih, applyFilter_cols]

theorem applyFilter_rows_sublist (df : DataFrame) (kv : String × FVal) :
    (applyFilter df kv).rows.Sublist df.rows := by
  unfold applyFilter
  split
  · split <;> exact List.filter_sublist _
  · exact List.Sublist.refl _

theorem applyFilters_rows_sublist (df : DataFrame) (fs : List (String × FVal)) :
    (applyFilters df fs).rows.Sublist df.rows := by
  induction fs generalizing df with
  | nil => exact List.Sublist.refl _
  | cons kv t ih =>
    exact (ih (applyFilter df kv)).trans (applyFilter_rows_sublist df kv)

theorem colCells_mem_of_filtered {df : DataFrame} {fs : List (String × FVal)}
    {c : String} {cell : Option Val}
    (h : cell ∈ (applyFilters df fs).colCells c) : cell ∈ df.colCells c := by
  unfold DataFrame.colCells at h ⊢
  rw [applyFilters_cols] at h
  cases hidx : colIdx df.cols c with
  | none => rw [hidx] at h; exact absurd h (List.not_mem_nil _)
  | some i =>
    rw [hidx] at h
    obtain ⟨r, hr, rfl⟩ := List.mem_map.mp h
    exact List.mem_map.mpr ⟨r, (applyFilters_rows_sublist df fs).subset hr, rfl⟩

theorem validNums_length_of_noStr {cells : List (Option Val)}
    (h : ∀ c ∈ cells, isStrCell c = false) :
    (validNums cells).length = cells.countP (fun c => c.isSome) := by
  induction cells with
  | nil => rfl
  | cons a t ih =>
    have ha := h a (List.mem_cons_self a t)
    have ht := ih (fun c hc => h c (List.mem_cons_of_mem a hc))
    cases a with
    | none =>
      have h1 : validNums (none :: t) = validNums t := rfl
      have h2 : List.countP (fun c : Option Val => c.isSome) (none :: t)
          = List.countP (fun c : Option Val => c.isSome) t := by
        rw [List.countP_cons]
        simp
      rw [h1, h2]
      exact ht
    | some v =>
      cases v with
      | num q =>
        have h1 : validNums (some (Val.num q) :: t) = q :: validNums t := rfl
        have h2 : List.countP (fun c : Option Val => c.isSome) (some (Val.num q) :: t)
            = List.countP (fun c : Option Val => c.isSome) t + 1 := by
          rw [List.countP_cons]
          simp
        rw [h1, h2, List.length_cons, ht]
      | str s => simp [isStrCell] at ha

theorem cutBinsAux_length (v : ℚ) (vs : List ℚ) :
    (cutBinsAux v vs).length = 10 := by
  unfold cutBinsAux
  dsimp only
  split <;> simp

theorem cutBins_cons_length (v : ℚ) (vs : List ℚ) :
    (cutBins (v :: vs)).length = 10 :=
  cutBinsAux_length v vs

theorem cutDistribution_cons_length (v : ℚ) (vs : List ℚ) :
    (cutDistribution (v :: vs)).length = 10 := by
  unfold cutDistribution
  rw [List.length_map, cutBins_cons_length]

theorem countP_isSome_add_isNone (l : List (Option Val)) :
    l.countP (fun c => c.isSome) + l.countP (fun c => c.isNone) = l.length := by
  induction l with
  | nil => rfl
  | cons a t ih =>
    cases a <;> simp [List.countP_cons] <;> omega

theorem get_variable_stats_some {df : DataFrame} {v : String}
    {filters : List (String × FVal)} (h : df.hasCol v = true) :
    get_variable_stats df v filters ≠ none := by
  unfold get_variable_stats
  rw [h]
  simp

/-- C8 (amended): on a numeric column whose non-missing values after
filtering are all identical (a non-empty constant series),
`get_variable_stats` still returns a report (the model is total, i.e.
nothing raises) and its histogram is the full 10-bin `pd.cut`
distribution — ten entries, not an empty list. -/
theorem degenerate_histogram_bins :
    ∀ (df : DataFrame) (v : String) (filters : List (String × FVal))
      (x : ℚ) (n : ℕ),
      df.hasCol v = true →
      isNumericCol (df.colCells v) = true →
      validNums ((applyFilters df filters).colCells v) = List.replicate (n + 1) x →
      ∃ r, get_variable_stats df v filters = some r
        ∧ r.is_numeric = true
        ∧ r.distribution.length = 10 := by
  intro df v filters x n hcol hnum hval
  have hnostr : ∀ c ∈ (applyFilters df filters).colCells v, isStrCell c = false := by
    intro c hc
    have hmem := colCells_mem_of_filtered hc
    have := List.all_eq_true.mp hnum c hmem
    simpa using this
  have hlen : (validNums ((applyFilters df filters).colCells v)).length
      = ((applyFilters df filters).colCells v).countP (fun c => c.isSome) :=
    validNums_length_of_noStr hnostr
  rw [hval] at hlen
  simp only [List.length_replicate] at hlen
  have hcount : ((applyFilters df filters).colCells v).countP (fun c => c.isSome)
      = n + 1 := hlen.symm
  have hmiss : ((applyFilters df filters).colCells v).length
      - ((applyFilters df filters).colCells v).countP (fun c => c.isNone)
      = n + 1 := by
    have hsplit := countP_isSome_add_isNone ((applyFilters df filters).colCells v)
    omega
  unfold get_variable_stats
  rw [hcol]
  simp only [if_true]
  refine ⟨_, rfl, ?_, ?_⟩
  · exact hnum
  · show (if isNumericCol (df.colCells v) then
        if ((applyFilters df filters).colCells v).length
            - ((applyFilters df filters).colCells v).countP (fun c => c.isNone) > 0 then
          cutDistribution (validNums ((applyFilters df filters).colCells v))
        else []
      else topCategorical ((applyFilters df filters).colCells v)).length = 10
    rw [hnum, hmiss]
    rw [if_pos rfl, if_pos (Nat.succ_pos n)]
    rw [hval, List.replicate_succ]
    exact cutDistribution_cons_length x (List.replicate n x)

/-- C8 counterexample: the constant `AGE` column 5, 5, 5 yields a 10-bin
histogram, not an empty distribution list. -/
theorem degenerate_histogram_cex :
    (get_variable_stats dfConstAge "AGE" []).map (fun r => r.distribution.length)
      = some 10
    ∧ ¬((get_variable_stats dfConstAge "AGE" []).map (fun r => r.distribution)
        = some []) := by
  constructor
  · with_unfolding_all decide
  · with_unfolding_all decide

/-- Witness for C8 on the concrete constant table. -/
theorem degenerate_histogram_bins_witness :
    ∃ r, get_variable_stats dfConstAge "AGE" [] = some r
      ∧ r.is_numeric = true
      ∧ r.distribution.length = 10 :=
  degenerate_histogram_bins dfConstAge "AGE" [] 5 2 rfl rfl
    (by with_unfolding_all decide)

/-! ### Lemmas about the summary's in-place normalization -/

theorem statusNormalized_pos {df : DataFrame}
    (h : (df.hasCol "SUBJ_STATUS" && df.hasCol "SUBJ_ID") = true) :
    statusNormalized df = mapCol df "SUBJ_STATUS" normCell := by
  unfold statusNormalized
  rw [h]
  rfl

theorem statusNormalized_neg {df : DataFrame}
    (h : (df.hasCol "SUBJ_STATUS" && df.hasCol "SUBJ_ID") = false) :
    statusNormalized df = df := by
  unfold statusNormalized
  rw [h]
  rfl

theorem statusNormalized_cols (df : DataFrame) :
    (statusNormalized df).cols = df.cols := by
  unfold statusNormalized
  split
  · exact mapCol_cols df _ _
  · rfl

theorem summaryNormalize_cols (df : DataFrame) :
    (summaryNormalize df).cols = df.cols := by
  unfold summaryNormalize
  split
  · rw [mapCol_cols, statusNormalized_cols]
  · exact statusNormalized_cols df

theorem hasCol_summaryNormalize (df : DataFrame) (c : String) :
    (summaryNormalize df).hasCol c = df.hasCol c := by
  unfold DataFrame.hasCol
  rw [summaryNormalize_cols]

theorem statusNormalized_wf {df : DataFrame} (h : df.wf) :
    (statusNormalized df).wf := by
  unfold statusNormalized
  split
  · exact mapCol_wf h
  · exact h

theorem summaryNormalize_wf {df : DataFrame} (h : df.wf) :
    (summaryNormalize df).wf := by
  unfold summaryNormalize
  split
  · exact mapCol_wf (statusNormalized_wf h)
  · exact statusNormalized_wf h

theorem summaryNormalize_pos_pos {df : DataFrame}
    (hst : (df.hasCol "SUBJ_STATUS" && df.hasCol "SUBJ_ID") = true)
    (hv : df.hasCol "VISIT_NM" = true) :
    summaryNormalize df
      = mapCol (mapCol df "SUBJ_STATUS" normCell) "VISIT_NM" normCell := by
  unfold summaryNormalize
  rw [hv, statusNormalized_pos hst]
  rfl

theorem summaryNormalize_pos_neg {df : DataFrame}
    (hst : (df.hasCol "SUBJ_STATUS" && df.hasCol "SUBJ_ID") = true)
    (hv : df.hasCol "VISIT_NM" = false) :
    summaryNormalize df = mapCol df "SUBJ_STATUS" normCell := by
  unfold summaryNormalize
  rw [hv, statusNormalized_pos hst]
  rfl

theorem summaryNormalize_neg_pos {df : DataFrame}
    (hst : (df.hasCol "SUBJ_STATUS" && df.hasCol "SUBJ_ID") = false)
    (hv : df.hasCol "VISIT_NM" = true) :
    summaryNormalize df = mapCol df "VISIT_NM" normCell := by
  unfold summaryNormalize
  rw [hv, statusNormalized_neg hst]
  rfl

theorem summaryNormalize_neg_neg {df : DataFrame}
    (hst : (df.hasCol "SUBJ_STATUS" && df.hasCol "SUBJ_ID") = false)
    (hv : df.hasCol "VISIT_NM" = false) :
    summaryNormalize df = df := by
  unfold summaryNormalize
  rw [hv, statusNormalized_neg hst]
  rfl

theorem summaryNormalize_colCells_ne {df : DataFrame} {c : String}
    (hs : c ≠ "SUBJ_STATUS") (hv : c ≠ "VISIT_NM") :
    (summaryNormalize df).colCells c = df.colCells c := by
  by_cases hst : (df.hasCol "SUBJ_STATUS" && df.hasCol "SUBJ_ID") = true
  · by_cases hvc : df.hasCol "VISIT_NM" = true
    · rw [summaryNormalize_pos_pos hst hvc,
        colCells_mapCol_ne (Ne.symm hv), colCells_mapCol_ne (Ne.symm hs)]
    · rw [summaryNormalize_pos_neg hst (by simpa using hvc),
        colCells_mapCol_ne (Ne.symm hs)]
  · have hst' : (df.hasCol "SUBJ_STATUS" && df.hasCol "SUBJ_ID") = false := by
      simpa using hst
    by_cases hvc : df.hasCol "VISIT_NM" = true
    · rw [summaryNormalize_neg_pos hst' hvc, colCells_mapCol_ne (Ne.symm hv)]
    · rw [summaryNormalize_neg_neg hst' (by simpa using hvc)]

theorem summaryNormalize_idem {df : DataFrame} (hwf : df.wf) :
    summaryNormalize (summaryNormalize df) = summaryNormalize df := by
  have hnn : (fun x => normCell (normCell x)) = normCell := funext normCell_normCell
  have hSV : ("SUBJ_STATUS" : String) ≠ "VISIT_NM" := by decide
  have hVS : ("VISIT_NM" : String) ≠ "SUBJ_STATUS" := by decide
  by_cases hst : (df.hasCol "SUBJ_STATUS" && df.hasCol "SUBJ_ID") = true
  · by_cases hv : df.hasCol "VISIT_NM" = true
    · have hstX : ((summaryNormalize df).hasCol "SUBJ_STATUS"
          && (summaryNormalize df).hasCol "SUBJ_ID") = true := by
        rw [hasCol_summaryNormalize, hasCol_summaryNormalize]
        exact hst
      have hvX : (summaryNormalize df).hasCol "VISIT_NM" = true := by
        rw [hasCol_summaryNormalize]
        exact hv
      rw [summaryNormalize_pos_pos hstX hvX]
      rw [summaryNormalize_pos_pos hst hv]
      rw [mapCol_comm hVS, mapCol_mapCol_self hwf, hnn,
        mapCol_mapCol_self (mapCol_wf hwf), hnn]
    · have hv' : df.hasCol "VISIT_NM" = false := by simpa using hv
      have hstX : ((summaryNormalize df).hasCol "SUBJ_STATUS"
          && (summaryNormalize df).hasCol "SUBJ_ID") = true := by
        rw [hasCol_summaryNormalize, hasCol_summaryNormalize]
        exact hst
      have hvX : (summaryNormalize df).hasCol "VISIT_NM" = false := by
        rw [hasCol_summaryNormalize]
        exact hv'
      rw [summaryNormalize_pos_neg hstX hvX, summaryNormalize_pos_neg hst hv',
        mapCol_mapCol_self hwf, hnn]
  · have hst' : (df.hasCol "SUBJ_STATUS" && df.hasCol "SUBJ_ID") = false := by
      simpa using hst
    have hstX : ((summaryNormalize df).hasCol "SUBJ_STATUS"
        && (summaryNormalize df).hasCol "SUBJ_ID") = false := by
      rw [hasCol_summaryNormalize, hasCol_summaryNormalize]
      exact hst'
    by_cases hv : df.hasCol "VISIT_NM" = true
    · have hvX : (summaryNormalize df).hasCol "VISIT_NM" = true := by
        rw [hasCol_summaryNormalize]
        exact hv
      rw [summaryNormalize_neg_pos hstX hvX, summaryNormalize_neg_pos hst' hv,
        mapCol_mapCol_self hwf, hnn]
    · have hv' : df.hasCol "VISIT_NM" = false := by simpa using hv
      have hvX : (summaryNormalize df).hasCol "VISIT_NM" = false := by
        rw [hasCol_summaryNormalize]
        exact hv'
      rw [summaryNormalize_neg_neg hstX hvX, summaryNormalize_neg_neg hst' hv']

/-- C9 (amended): a `get_summary` call mutates the stored table only on
the `SUBJ_STATUS` column (when `SUBJ_STATUS` and `SUBJ_ID` are both
present) and the `VISIT_NM` column (when present), replacing every cell
by the trimmed string form of its `str()` rendering — so a missing cell
becomes the non-missing string `"nan"`, which is more than pure trim
normalization; every other column is unchanged, the column list is
unchanged, and repeating the call leaves the table identical to after
the first call. -/
theorem get_summary_frame_effects :
    ∀ df : DataFrame,
      ((get_summary df).2 = summaryNormalize df)
      ∧ ((get_summary df).2.cols = df.cols)
      ∧ (∀ c, c ≠ "SUBJ_STATUS" → c ≠ "VISIT_NM" →
          (get_summary df).2.colCells c = df.colCells c)
      ∧ (df.wf → (df.hasCol "SUBJ_STATUS" && df.hasCol "SUBJ_ID") = true →
          (get_summary df).2.colCells "SUBJ_STATUS"
            = (df.colCells "SUBJ_STATUS").map normCell)
      ∧ (df.wf → df.hasCol "VISIT_NM" = true →
          (get_summary df).2.colCells "VISIT_NM"
            = (df.colCells "VISIT_NM").map normCell)
      ∧ (df.wf → (get_summary (get_summary df).2).2 = (get_summary df).2) := by
  intro df
  have hVS : ("VISIT_NM" : String) ≠ "SUBJ_STATUS" := by decide
  refine ⟨rfl, summaryNormalize_cols df, ?_, ?_, ?_, ?_⟩
  · intro c hs hv
    exact summaryNormalize_colCells_ne hs hv
  · intro hwf hst
    show (summaryNormalize df).colCells "SUBJ_STATUS"
        = (df.colCells "SUBJ_STATUS").map normCell
    by_cases hv : df.hasCol "VISIT_NM" = true
    · rw [summaryNormalize_pos_pos hst hv, colCells_mapCol_ne hVS,
        colCells_mapCol_self hwf]
    · rw [summaryNormalize_pos_neg hst (by simpa using hv),
        colCells_mapCol_self hwf]
  · intro hwf hv
    show (summaryNormalize df).colCells "VISIT_NM"
        = (df.colCells "VISIT_NM").map normCell
    by_cases hst : (df.hasCol "SUBJ_STATUS" && df.hasCol "SUBJ_ID") = true
    · rw [summaryNormalize_pos_pos hst hv,
        colCells_mapCol_self (mapCol_wf hwf), colCells_mapCol_ne hVS.symm]
    · rw [summaryNormalize_neg_pos (by simpa using hst) hv,
        colCells_mapCol_self hwf]
  · intro hwf
    exact summaryNormalize_idem hwf

/-- C9 counterexample: a missing `SUBJ_STATUS` cell does not remain
missing — `astype(str)` turns it into the literal string `"nan"` — so
the mutation is not a pure trim normalization of present values. -/
theorem get_summary_mutation_cex :
    dfStatusMut.colCells "SUBJ_STATUS" = [none]
    ∧ (get_summary dfStatusMut).2.colCells "SUBJ_STATUS" = [some (.str "nan")]
    ∧ (get_summary dfStatusMut).2.colCells "SUBJ_STATUS" ≠ [none] := by
  exact ⟨rfl, rfl, by decide⟩

/-- Witness for C9 on the populated summary table. -/
theorem get_summary_frame_effects_witness :
    (get_summary dfSummaryW).2.colCells "ENROLL_COPDNOTCOPD"
      = dfSummaryW.colCells "ENROLL_COPDNOTCOPD"
    ∧ (get_summary dfSummaryW).2.colCells "SUBJ_STATUS"
      = (dfSummaryW.colCells "SUBJ_STATUS").map normCell
    ∧ (get_summary (get_summary dfSummaryW).2).2 = (get_summary dfSummaryW).2 :=
  ⟨(get_summary_frame_effects dfSummaryW).2.2.1 "ENROLL_COPDNOTCOPD"
      (by decide) (by decide),
   (get_summary_frame_effects dfSummaryW).2.2.2.1
     (by intro r hr; fin_cases hr <;> rfl) (by decide),
   (get_summary_frame_effects dfSummaryW).2.2.2.2.2
     (by intro r hr; fin_cases hr <;> rfl)⟩

/-! ### Lemmas about the per-institution breakdown -/

theorem uniqFirst_subset [DecidableEq α] :
    ∀ (l : List α) (x : α), x ∈ uniqFirst l → x ∈ l := by
  intro l
  induction l using uniqFirst.induct with
  | case1 =>
    intro x hx
    rw [uniqFirst] at hx
    exact absurd hx (List.not_mem_nil x)
  | case2 h t ih =>
    intro x hx
    rw [uniqFirst] at hx
    rcases List.mem_cons.mp hx with rfl | hx'
    · exact List.mem_cons_self _ _
    · exact List.mem_cons_of_mem h (List.mem_filter.mp (ih x hx')).1

theorem mem_uniqFirst [DecidableEq α] :
    ∀ (l : List α) (x : α), x ∈ uniqFirst l ↔ x ∈ l := by
  intro l
  induction l using uniqFirst.induct with
  | case1 =>
    intro x
    rw [uniqFirst]
  | case2 h t ih =>
    intro x
    constructor
    · exact uniqFirst_subset (h :: t) x
    · intro hx
      rw [uniqFirst]
      rcases List.mem_cons.mp hx with rfl | hx'
      · exact List.mem_cons_self _ _
      · by_cases he : x = h
        · subst he; exact List.mem_cons_self _ _
        · exact List.mem_cons_of_mem h
            ((ih x).mpr (List.mem_filter.mpr ⟨hx', by simpa using he⟩))

theorem uniqFirst_nodup [DecidableEq α] : ∀ (l : List α), (uniqFirst l).Nodup := by
  intro l
  induction l using uniqFirst.induct with
  | case1 =>
    rw [uniqFirst]
    exact List.nodup_nil
  | case2 h t ih =>
    rw [uniqFirst]
    refine List.Nodup.cons ?_ ih
    intro hmem
    have := (List.mem_filter.mp (uniqFirst_subset _ h hmem)).2
    simp at this

theorem insertVal_perm (x : Val) (l : List Val) :
    List.Perm (insertVal x l) (x :: l) := by
  induction l with
  | nil => exact List.Perm.refl _
  | cons y t ih =>
    unfold insertVal
    split
    · exact List.Perm.refl _
    · exact (List.Perm.cons y ih).trans (List.Perm.swap x y t)

theorem sortVals_perm (l : List Val) : List.Perm (sortVals l) l := by
  suffices h : ∀ (l acc : List Val),
      List.Perm (l.foldl (fun acc x => insertVal x acc) acc) (l ++ acc) by
    simpa using h l []
  intro l
  induction l with
  | nil => intro acc; exact List.Perm.refl _
  | cons a t ih =>
    intro acc
    show List.Perm (t.foldl _ (insertVal a acc)) ((a :: t) ++ acc)
    have h2 : List.Perm (t ++ insertVal a acc) (t ++ (a :: acc)) :=
      List.Perm.append_left t (insertVal_perm a acc)
    exact (ih (insertVal a acc)).trans (h2.trans List.perm_middle)

theorem groupKeys_nodup (df : DataFrame) : (groupKeys df).Nodup :=
  ((sortVals_perm _).nodup_iff).mpr (uniqFirst_nodup _)

theorem mem_groupKeys (df : DataFrame) (k : Val) :
    k ∈ groupKeys df ↔ some k ∈ df.colCells "LOCATION_NAME" := by
  unfold groupKeys
  rw [(sortVals_perm _).mem_iff, mem_uniqFirst]
  simp [List.mem_filterMap]

theorem institutionStats_names (fdf : DataFrame) (v : String) :
    (institutionStats fdf v).map InstStat.name
      = (groupKeys fdf).filter (fun k => !(groupValid fdf v k).isEmpty) := by
  unfold institutionStats
  generalize groupKeys fdf = l
  induction l with
  | nil => rfl
  | cons k t ih =>
    rw [List.filterMap_cons, List.filter_cons]
    by_cases hg : (groupValid fdf v k).isEmpty = true
    · rw [if_pos hg]
      have hb : (!(groupValid fdf v k).isEmpty) = false := by
        rw [hg]
        rfl
      rw [hb, if_neg Bool.false_ne_true]
      exact ih
    · rw [if_neg hg]
      have hb : (!(groupValid fdf v k).isEmpty) = true := by
        cases h2 : (groupValid fdf v k).isEmpty
        · rfl
        · exact absurd h2 hg
      rw [hb, if_pos rfl]
      exact congrArg (List.cons k) ih

theorem mem_institutionStats {fdf : DataFrame} {v : String} {e : InstStat}
    (h : e ∈ institutionStats fdf v) :
    e.name ∈ groupKeys fdf
    ∧ ¬(groupValid fdf v e.name).isEmpty = true
    ∧ e.count = (groupValid fdf v e.name).length := by
  unfold institutionStats at h
  obtain ⟨k, hk, hfk⟩ := List.mem_filterMap.mp h
  by_cases hg : (groupValid fdf v k).isEmpty = true
  · rw [if_pos hg] at hfk
    cases hfk
  · rw [if_neg hg] at hfk
    have he := Option.some.inj hfk
    subst he
    exact ⟨hk, hg, rfl⟩

/-- C10: for a numeric variable, the per-institution breakdown of
`get_variable_stats` has exactly one entry per `LOCATION_NAME` group
value with at least one non-missing variable value; each entry's count
is the number of those values (hence at least 1); institutions whose
values are all missing are omitted rather than reported with count 0. -/
theorem institution_breakdown_spec :
    ∀ (df : DataFrame) (v : String) (filters : List (String × FVal))
      (r : VarReport),
      get_variable_stats df v filters = some r →
      r.is_numeric = true →
      ((r.institution_stats.map InstStat.name).Nodup
       ∧ (∀ k : Val, k ∈ r.institution_stats.map InstStat.name ↔
            (some k ∈ (applyFilters df filters).colCells "LOCATION_NAME"
             ∧ ¬(groupValid (applyFilters df filters) v k).isEmpty = true))
       ∧ (∀ e ∈ r.institution_stats,
            e.count = (groupValid (applyFilters df filters) v e.name).length
            ∧ 1 ≤ e.count)) := by
  intro df v filters r hr hnum
  have hcol : df.hasCol v = true := by
    by_contra hc
    have hc' : df.hasCol v = false := by simpa using hc
    unfold get_variable_stats at hr
    rw [hc'] at hr
    cases hr
  have hrep : r = varReportOf df v filters := by
    unfold get_variable_stats at hr
    rw [hcol] at hr
    simpa using hr.symm
  subst hrep
  have hnum' : isNumericCol (df.colCells v) = true := hnum
  have hinst : (varReportOf df v filters).institution_stats
      = (if (applyFilters df filters).hasCol "LOCATION_NAME"
            && isNumericCol (df.colCells v)
         then institutionStats (applyFilters df filters) v else []) := rfl
  by_cases hloc : (applyFilters df filters).hasCol "LOCATION_NAME" = true
  · have hcond : ((applyFilters df filters).hasCol "LOCATION_NAME"
        && isNumericCol (df.colCells v)) = true := by
      rw [hloc, hnum']
      rfl
    have hstats : (varReportOf df v filters).institution_stats
        = institutionStats (applyFilters df filters) v := by
      rw [hinst, hcond]
      rfl
    rw [hstats]
    refine ⟨?_, ?_, ?_⟩
    · rw [institutionStats_names]
      exact (groupKeys_nodup _).filter _
    · intro k
      rw [institutionStats_names, List.mem_filter, mem_groupKeys]
      simp
    · intro e he
      obtain ⟨hk, hne, hcnt⟩ := mem_institutionStats he
      refine ⟨hcnt, ?_⟩
      rw [hcnt]
      cases hg : groupValid (applyFilters df filters) v e.name with
      | nil => rw [hg] at hne; exact absurd rfl hne
      | cons a t => simp
  · have hloc' : (applyFilters df filters).hasCol "LOCATION_NAME" = false := by
      simpa using hloc
    have hcond : ((applyFilters df filters).hasCol "LOCATION_NAME"
        && isNumericCol (df.colCells v)) = false := by
      rw [hloc']
      rfl
    have hstats : (varReportOf df v filters).institution_stats = [] := by
      rw [hinst, hcond]
      rfl
    rw [hstats]
    refine ⟨List.nodup_nil, ?_, ?_⟩
    · intro k
      simp only [List.map_nil, List.not_mem_nil, false_iff]
      rintro ⟨hmem, -⟩
      unfold DataFrame.colCells at hmem
      rw [(colIdx_eq_none_iff _ _).mpr hloc'] at hmem
      exact absurd hmem (List.not_mem_nil _)
    · intro e he
      exact absurd he (List.not_mem_nil e)

/-- Witness for C10: institution `A` (all `AGE` values missing) and the
missing-location row are omitted; institution `B` appears once with
count 2. -/
theorem institution_breakdown_spec_witness :
    get_variable_stats dfInstW "AGE" [] = some (varReportOf dfInstW "AGE" [])
    ∧ ((varReportOf dfInstW "AGE" []).institution_stats.map InstStat.name).Nodup
    ∧ ((.str "B" : Val) ∈ (varReportOf dfInstW "AGE" []).institution_stats.map InstStat.name
        ↔ (some (.str "B") ∈ (applyFilters dfInstW []).colCells "LOCATION_NAME"
           ∧ ¬(groupValid (applyFilters dfInstW []) "AGE" (.str "B")).isEmpty = true))
    ∧ (∀ e ∈ (varReportOf dfInstW "AGE" []).institution_stats,
        e.count = (groupValid (applyFilters dfInstW []) "AGE" e.name).length
        ∧ 1 ≤ e.count) := by
  have h := institution_breakdown_spec dfInstW "AGE" []
    (varReportOf dfInstW "AGE" []) rfl rfl
  exact ⟨rfl, h.1, h.2.1 _, h.2.2⟩

end CopdQC
